import Mathlib

/-!
Verification of the retrieval/synthesis/verification core of the epic-web-app
repository.  The definitions below are shallow embeddings of the Python
mitigation code in `docs/development/ai-risks-and-mitigation.md`
(`detect_potential_bias`, `filter_biased_responses`, `verify_response_accuracy`,
`add_confidence_disclaimer`, `CircuitBreaker`,
`get_llm_response_with_fallback`) and of the caller-facing `/query` contract
documented in the repository README and consumed by the frontend
(`api-client.ts`, `AnswerDisplay.tsx`).

Strings are modelled as Lean `String`/`List Char`; Python's floating point
scores are modelled as rationals; Python exceptions are modelled with
`Except`; `time.time()` is passed in explicitly as a rational timestamp.
-/

namespace EpicWebApp

/-! ### String primitives

Python's `s.lower()`, `needle in hay` (contiguous substring test),
`s.split(sep)` and `s.split()` (whitespace split dropping empty tokens),
modelled on `List Char`. -/

/-- Python `s.lower()` on a character list. -/
def lowerStr (s : List Char) : List Char := s.map Char.toLower

/-- Python `needle in hay` for strings: contiguous substring test. -/
def strIn (needle : List Char) : List Char → Bool
  | [] => needle.isEmpty
  | c :: t => needle.isPrefixOf (c :: t) || strIn needle t

/-- `strIn` decides the `List.IsInfix` relation. -/
theorem strIn_infix_iff (needle hay : List Char) :
    strIn needle hay = true ↔ needle <:+: hay := by
  induction hay with
  | nil =>
    constructor
    · intro h
      have hn : needle = [] := by
        cases needle with
        | nil => rfl
        | cons a l => simp [strIn, List.isEmpty] at h
      subst hn; exact List.infix_rfl
    · intro h
      have hn : needle = [] := List.eq_nil_of_infix_nil h
      subst hn; rfl
  | cons c t ih =>
    simp only [strIn, Bool.or_eq_true, List.isPrefixOf_iff_prefix, ih]
    constructor
    · rintro (h | h)
      · exact h.isInfix
      · exact h.trans (List.infix_cons List.infix_rfl)
    · intro h
      rcases h with ⟨s, u, hsu⟩
      cases s with
      | nil => exact Or.inl ⟨u, by simpa using hsu⟩
      | cons x s' =>
        simp only [List.cons_append] at hsu
        injection hsu with hx ht
        exact Or.inr ⟨s', u, ht⟩

/-! ### Content Filter (`detect_potential_bias`, `filter_biased_responses`)

Embedded from `docs/development/ai-risks-and-mitigation.md`, section
"Model Bias and Fairness Risk".  The Python code walks a fixed dictionary of
bias indicators and, for every indicator with
`indicator.lower() in response.lower()`, increments `bias_score` and appends
the indicator's category to `detected_biases`. -/

/-- The fixed `bias_indicators` dictionary, in source order. -/
def biasIndicators : List (String × List String) :=
  [("gender_stereotypes",
      ["women should", "men are better", "typical female", "typical male"]),
   ("cultural_insensitivity", ["primitive", "backward", "uncivilized"]),
   ("age_discrimination", ["too old", "too young", "elderly", "youthful"])]

/-- Result record of `detect_potential_bias`. -/
structure BiasReport where
  bias_score : Nat
  detected_biases : List String
  deriving Repr, DecidableEq

/-- `detect_potential_bias(response)`: one hit per indicator whose lowercase
form occurs as a substring of the lowercased response. -/
def detectPotentialBias (response : String) : BiasReport :=
  let rl := lowerStr response.data
  let hits := biasIndicators.flatMap fun p =>
    (p.2.filter fun ind => strIn (lowerStr ind.data) rl).map fun _ => p.1
  { bias_score := hits.length, detected_biases := hits }

/-- `requires_review` field computed by `detect_potential_bias`:
`bias_score > 2`. -/
def requiresReview (response : String) : Bool :=
  (detectPotentialBias response).bias_score > 2

/-- The fixed replacement message of `filter_biased_responses`. -/
def biasApology : String :=
  "I apologize, but I cannot provide a response that might contain biased information. Please rephrase your question."

/-- `filter_biased_responses(response)`: replace the whole response with the
apology when `requires_review`, otherwise pass it through unchanged. -/
def filterBiasedResponses (response : String) : String :=
  if requiresReview response then biasApology else response

/-- Modelled from the spec: "exact-boundary pattern matches (whole-word,
case-insensitive)".  A term matches at whole-word boundaries when its
lowercase form occurs in the lowercased text with no letter or digit
immediately adjacent on either side.  (The source `detect_potential_bias`
has no such notion; this definition exists only to compare the spec's
boundary requirement with the source's substring test.) -/
def wholeWordOccurs (term text : List Char) : Bool :=
  let t := lowerStr term
  let h := lowerStr text
  let isWordChar : Char → Bool := fun c => c.isAlpha || c.isDigit
  (List.range (h.length + 1)).any fun i =>
    t.isPrefixOf (h.drop i) &&
    (decide (i = 0) || !isWordChar (h.get! (i - 1))) &&
    (decide (i + t.length ≥ h.length) || !isWordChar (h.get! (i + t.length)))

/-! ### Verifier (`verify_response_accuracy`, `add_confidence_disclaimer`)

Embedded from `docs/development/ai-risks-and-mitigation.md`, section
"Model Hallucination Risk".  `response.split('. ')` is modelled by
`splitOnL`, `claim.lower().split()[:3]` by `pySplitWs`/`take 3`, and
`keyword in chunk.lower()` by `strIn`. -/

/-- Python `s.split(sep)` for a nonempty separator, on character lists:
split at each non-overlapping occurrence of `sep`, scanning left to right.
Always returns at least one piece (`[[]]` on the empty string, like
Python's `''.split(sep) == ['']`). -/
def splitOnLGo (sep : List Char) : Nat → List Char → List (List Char)
  | _, [] => [[]]
  | 0, s => [s]
  | fuel + 1, c :: rest =>
    if sep ≠ [] ∧ sep.isPrefixOf (c :: rest) = true then
      [] :: splitOnLGo sep fuel (rest.drop (sep.length - 1))
    else
      match splitOnLGo sep fuel rest with
      | [] => [[c]]
      | w :: ws => (c :: w) :: ws

/-- Python `s.split(sep)` for a nonempty separator, on character lists:
split at each non-overlapping occurrence of `sep`, scanning left to right
(`splitOnLGo` consumes one character of fuel per character of input, so
`s.length` fuel always suffices).  Always returns at least one piece
(`[[]]` on the empty string, like Python's `''.split(sep) == ['']`). -/
def splitOnL (sep : List Char) (s : List Char) : List (List Char) :=
  splitOnLGo sep s.length s

/-- `splitOnLGo` never returns the empty list of pieces. -/
theorem splitOnLGo_ne_nil (sep : List Char) (fuel : Nat) (s : List Char) :
    splitOnLGo sep fuel s ≠ [] := by
  match fuel, s with
  | _, [] => simp [splitOnLGo]
  | 0, c :: rest => simp [splitOnLGo]
  | fuel + 1, c :: rest =>
    rw [splitOnLGo]
    split
    · simp
    · split <;> simp

/-- `splitOnL` never returns the empty list of pieces. -/
theorem splitOnL_ne_nil (sep s : List Char) : splitOnL sep s ≠ [] :=
  splitOnLGo_ne_nil sep s.length s

/-- Python `s.split()` (no separator): split on whitespace runs, dropping
empty tokens. -/
def pySplitWs (s : List Char) : List (List Char) :=
  (List.splitOnP (fun c => c.isWhitespace) s).filter fun w => decide (w ≠ [])

/-- `claims = response.split('. ')` in `verify_response_accuracy`. -/
def claimsOf (response : String) : List (List Char) :=
  splitOnL ['.', ' '] response.data

/-- `claim.lower().split()[:3]`: the first three whitespace tokens of the
lowercased claim. -/
def firstThreeKeywords (claim : List Char) : List (List Char) :=
  (pySplitWs (lowerStr claim)).take 3

/-- The per-claim test of `verify_response_accuracy`:
`any(keyword in chunk.lower() for keyword in claim.lower().split()[:3])`
for some chunk, scanning chunks in order. -/
def claimVerified (source_chunks : List String) (claim : List Char) : Bool :=
  source_chunks.any fun chunk =>
    (firstThreeKeywords claim).any fun kw => strIn kw (lowerStr chunk.data)

/-- The claim loop of `verify_response_accuracy`: partition the claims, in
order, into `verified_claims` and `unverified_claims`. -/
def verifyLoop (source_chunks : List String) :
    List (List Char) → List (List Char) × List (List Char)
  | [] => ([], [])
  | c :: cs =>
    let rest := verifyLoop source_chunks cs
    if claimVerified source_chunks c then (c :: rest.1, rest.2)
    else (rest.1, c :: rest.2)

/-- Result record of `verify_response_accuracy`. -/
structure VerificationResult where
  verification_score : ℚ
  verified_claims : List (List Char)
  unverified_claims : List (List Char)
  confidence_level : String
  deriving Repr

/-- The `confidence_level` expression of `verify_response_accuracy`:
`'high' if score > 0.8 else 'medium' if score > 0.5 else 'low'`. -/
def confidenceLevel (score : ℚ) : String :=
  if score > 4/5 then "high" else if score > 1/2 then "medium" else "low"

/-- `verify_response_accuracy(response, source_chunks)`. -/
def verifyResponseAccuracy (response : String) (source_chunks : List String) :
    VerificationResult :=
  let claims := claimsOf response
  let vu := verifyLoop source_chunks claims
  let score : ℚ :=
    if claims = [] then 0 else (vu.1.length : ℚ) / (claims.length : ℚ)
  { verification_score := score
    verified_claims := vu.1
    unverified_claims := vu.2
    confidence_level := confidenceLevel score }

/-- Low-confidence disclaimer text of `add_confidence_disclaimer`. -/
def lowDisclaimer : String :=
  "\n\n⚠️ **Confidence Level: Low** - This response contains information that could not be fully verified against the source material. Please verify critical information independently."

/-- Medium-confidence disclaimer text of `add_confidence_disclaimer`. -/
def mediumDisclaimer : String :=
  "\n\n⚠️ **Confidence Level: Medium** - Some information in this response may require additional verification."

/-- High-confidence disclaimer text of `add_confidence_disclaimer`. -/
def highDisclaimer : String :=
  "\n\n✅ **Confidence Level: High** - This response is well-supported by the source material."

/-- `add_confidence_disclaimer(response, verification_score)`. -/
def addConfidenceDisclaimer (response : String) (verification_score : ℚ) :
    String :=
  if verification_score < 1/2 then response ++ lowDisclaimer
  else if verification_score < 4/5 then response ++ mediumDisclaimer
  else response ++ highDisclaimer

/-- Modelled from the spec: "sentence-level segmentation on terminal
punctuation" — split at every `.`, `!` or `?`, keeping the nonempty
fragments.  (The source splits only on the two-character sequence `'. '`;
this definition exists only to compare the spec's segmentation with the
source's.) -/
def specSentenceUnits (s : List Char) : List (List Char) :=
  (List.splitOnP (fun c => c = '.' || c = '!' || c = '?') s).filter
    fun w => decide (w ≠ [])

/-- Modelled from the spec: a claim "shares … significant lexical tokens"
with a chunk — some whitespace token of the lowercased claim is a
whitespace token of the lowercased chunk.  (The source tests substring
containment of the first three tokens instead; this definition exists only
for comparison.) -/
def sharesLexicalToken (claim chunk : List Char) : Bool :=
  (pySplitWs (lowerStr claim)).any fun t =>
    (pySplitWs (lowerStr chunk)).contains t

/-! ### Circuit breaker (`CircuitBreaker`, `get_llm_response_with_fallback`)

Embedded from `docs/development/ai-risks-and-mitigation.md`, section
"Performance and Reliability Risk".  `time.time()` is passed in as an
explicit rational `now`; the outcome of the wrapped function is passed in
as a boolean (`true` = returned normally, `false` = raised). -/

/-- The three `CircuitBreaker.state` values. -/
inductive CBState where
  | closed
  | opened
  | halfOpen
  deriving Repr, DecidableEq

/-- The mutable fields (plus constructor parameters) of `CircuitBreaker`. -/
structure CircuitBreaker where
  failure_threshold : Nat
  recovery_timeout : ℚ
  failure_count : Nat
  last_failure_time : ℚ
  state : CBState
  deriving Repr, DecidableEq

/-- `CircuitBreaker.__init__(failure_threshold, recovery_timeout)`. -/
def mkCircuitBreaker (failure_threshold : Nat) (recovery_timeout : ℚ) :
    CircuitBreaker :=
  { failure_threshold := failure_threshold
    recovery_timeout := recovery_timeout
    failure_count := 0
    last_failure_time := 0
    state := CBState.closed }

/-- The `OPEN`-state guard at the top of `CircuitBreaker.__call__`'s
wrapper: `none` means the call is rejected (`raise Exception("Circuit
breaker is OPEN")` without invoking the wrapped function); `some cb'`
means the call proceeds with the possibly updated breaker (`HALF_OPEN`
after the recovery timeout has elapsed). -/
def cbGuard (cb : CircuitBreaker) (now : ℚ) : Option CircuitBreaker :=
  if cb.state = CBState.opened then
    if now - cb.last_failure_time > cb.recovery_timeout then
      some { cb with state := CBState.halfOpen }
    else
      none
  else
    some cb

/-- Result of one wrapper call: the wrapped function returned (`ok`), the
call was rejected by the open breaker (`rejected`), or the wrapped
function's exception was re-raised (`raised`). -/
inductive CBResult where
  | ok
  | rejected
  | raised
  deriving Repr, DecidableEq

/-- One invocation of the `CircuitBreaker.__call__` wrapper at time `now`;
`success` tells whether the wrapped function returns normally. -/
def cbCall (cb : CircuitBreaker) (now : ℚ) (success : Bool) :
    CircuitBreaker × CBResult :=
  match cbGuard cb now with
  | none => (cb, CBResult.rejected)
  | some cb1 =>
    if success then
      if cb1.state = CBState.halfOpen then
        ({ cb1 with state := CBState.closed, failure_count := 0 },
         CBResult.ok)
      else
        (cb1, CBResult.ok)
    else
      let cb2 := { cb1 with failure_count := cb1.failure_count + 1,
                            last_failure_time := now }
      if cb2.failure_count ≥ cb2.failure_threshold then
        ({ cb2 with state := CBState.opened }, CBResult.raised)
      else
        (cb2, CBResult.raised)

/-- Fold a list of timed call outcomes through the breaker. -/
def cbRun (cb : CircuitBreaker) (calls : List (ℚ × Bool)) : CircuitBreaker :=
  calls.foldl (fun c p => (cbCall c p.1 p.2).1) cb

/-- Breaker states reachable from a freshly constructed breaker by wrapper
calls. -/
inductive CBReachable (ft : Nat) (rt : ℚ) : CircuitBreaker → Prop where
  | init : CBReachable ft rt (mkCircuitBreaker ft rt)
  | step (cb : CircuitBreaker) (now : ℚ) (success : Bool) :
      CBReachable ft rt cb → CBReachable ft rt (cbCall cb now success).1

/-- The fixed apology of `get_llm_response_with_fallback`. -/
def llmFallbackText : String :=
  "I apologize, but I'm currently unable to process your request. Please try again later."

/-- The body of `get_llm_response_with_fallback`: the primary model result
(`none` = `get_llm_response` raised) or the cached response
(`none`/empty = falsy, like Python `or`), else the fixed apology.  The
body traps every exception itself, so it always returns a string. -/
def llmResponseWithFallbackBody (llm cached : Option String) : String :=
  match llm with
  | some r => r
  | none =>
    match cached with
    | some c => if c = "" then llmFallbackText else c
    | none => llmFallbackText

/-- `get_llm_response_with_fallback` as decorated by
`@CircuitBreaker(...)`: the breaker guard may reject the call by raising
`Exception("Circuit breaker is OPEN")` (modelled as `Except.error`);
otherwise the always-returning body runs and the wrapper records a
success. -/
def synthesizerCall (cb : CircuitBreaker) (now : ℚ) (llm cached : Option String) :
    CircuitBreaker × Except String String :=
  match cbGuard cb now with
  | none => (cb, Except.error "Circuit breaker is OPEN")
  | some cb1 =>
    let result := llmResponseWithFallbackBody llm cached
    if cb1.state = CBState.halfOpen then
      ({ cb1 with state := CBState.closed, failure_count := 0 },
       Except.ok result)
    else
      (cb1, Except.ok result)

/-! ### Caller-facing `/query` contract

Embedded from the repository README (`POST /query` response body), the
frontend client (`api-client.ts`, `queryBook`) and the component that
renders it (`AnswerDisplay.tsx`, `AnswerDisplayProps`). -/

/-- The JSON keys of the documented successful `POST /query` response
body: `{"answer": "..."}`. -/
def queryResponseKeys : List String := ["answer"]

/-- The successful `/query` response record as declared by the frontend
(`AnswerDisplayProps.answer` has the single field `answer : string`). -/
structure QueryResponse where
  answer : String
  deriving Repr, DecidableEq

/-! ### Helper lemmas -/

/-- The claim loop is an ordered partition of the claims by `claimVerified`. -/
theorem verifyLoop_eq_filter (chunks : List String) (l : List (List Char)) :
    verifyLoop chunks l
      = (l.filter (fun c => claimVerified chunks c),
         l.filter (fun c => !(claimVerified chunks c))) := by
  induction l with
  | nil => rfl
  | cons c cs ih =>
    by_cases hc : claimVerified chunks c
    · simp [verifyLoop, ih, hc, List.filter_cons]
    · simp [verifyLoop, ih, hc, List.filter_cons]

/-- Reachability invariant: whenever the breaker is `OPEN` or `HALF_OPEN`,
the failure counter has already reached the threshold (it is only reset by
a success in `HALF_OPEN`, which also closes the breaker). -/
theorem cb_reachable_count_ge (ft : Nat) (rt : ℚ) (cb : CircuitBreaker)
    (h : CBReachable ft rt cb) :
    (cb.state = CBState.opened ∨ cb.state = CBState.halfOpen) →
      cb.failure_threshold ≤ cb.failure_count := by
  induction h with
  | init => intro hs; simp [mkCircuitBreaker] at hs
  | step cb now success hr ih =>
    obtain ⟨tft, trt, tfc, tlf, tst⟩ := cb
    intro hs
    cases tst with
    | closed =>
      cases success with
      | true =>
        simp [cbCall, cbGuard] at hs
      | false =>
        by_cases h3 : tfc + 1 ≥ tft
        · simp [cbCall, cbGuard, h3] at hs ⊢
        · simp [cbCall, cbGuard, h3] at hs
    | opened =>
      by_cases h2 : now - tlf > trt
      · cases success with
        | true => simp [cbCall, cbGuard, h2] at hs
        | false =>
          by_cases h3 : tfc + 1 ≥ tft
          · simp [cbCall, cbGuard, h2, h3] at hs ⊢
          · simp only [cbCall, cbGuard] at hs ⊢
            have := ih (Or.inl rfl)
            simp at this
            omega
      · simp [cbCall, cbGuard, h2] at hs ⊢
        have := ih (Or.inl rfl)
        simp at this
        rcases hs with hs | hs
        all_goals omega
    | halfOpen =>
      cases success with
      | true => simp [cbCall, cbGuard] at hs
      | false =>
        by_cases h3 : tfc + 1 ≥ tft
        · simp [cbCall, cbGuard, h3] at hs ⊢
        · simp [cbCall, cbGuard, h3] at hs ⊢
          have := ih (Or.inr rfl)
          simp at this
          omega

/-- From a `CLOSED` breaker whose counter is exactly `failure_threshold`
short of the threshold, that many consecutive failures end in `OPEN`. -/
theorem cbFailRun_opens (times : List ℚ) (cb : CircuitBreaker)
    (hst : cb.state = CBState.closed)
    (hlen : cb.failure_count + times.length = cb.failure_threshold)
    (hpos : 1 ≤ times.length) :
    (cbRun cb (times.map (fun t => (t, false)))).state = CBState.opened := by
  induction times generalizing cb with
  | nil => simp at hpos
  | cons t rest ih =>
    obtain ⟨tft, trt, tfc, tlf, tst⟩ := cb
    simp only at hst hlen
    subst hst
    by_cases h3 : tfc + 1 ≥ tft
    · have hrlen : rest.length = 0 := by
        simp only [List.length_cons] at hlen
        omega
      have hrest : rest = [] := List.eq_nil_of_length_eq_zero hrlen
      subst hrest
      simp [cbRun, cbCall, cbGuard, h3]
    · simp only [List.map_cons, cbRun, List.foldl_cons]
      have hstep : (cbCall ⟨tft, trt, tfc, tlf, CBState.closed⟩ t false).1
          = ⟨tft, trt, tfc + 1, t, CBState.closed⟩ := by
        simp [cbCall, cbGuard, h3]
      rw [hstep]
      have := ih ⟨tft, trt, tfc + 1, t, CBState.closed⟩ rfl
        (by simp at hlen ⊢; omega) (by simp at hlen ⊢; omega)
      simpa [cbRun] using this

/-- An `OPEN` breaker whose last failure happened right now rejects every
call made at the same instant (for a nonnegative recovery timeout), so the
state never changes. -/
theorem cbRun_opened_stays (l : List Bool) (cb : CircuitBreaker) (now : ℚ)
    (hst : cb.state = CBState.opened)
    (hlf : cb.last_failure_time = now)
    (hrt : 0 ≤ cb.recovery_timeout) :
    cbRun cb (l.map (fun b => (now, b))) = cb := by
  induction l with
  | nil => rfl
  | cons b rest ih =>
    have hstep : cbCall cb now b = (cb, CBResult.rejected) := by
      have hng : ¬(now - cb.last_failure_time > cb.recovery_timeout) := by
        rw [hlf]
        simp
        linarith
      simp [cbCall, cbGuard, hst, hng]
    simp only [List.map_cons, cbRun, List.foldl_cons, hstep]
    exact ih

/-- From a `CLOSED` breaker below threshold, any outcome sequence holding
enough failures — interleaved with arbitrarily many successes — ends with
the breaker `OPEN`. -/
theorem cbRun_mixed_opens (l : List Bool) (cb : CircuitBreaker) (now : ℚ)
    (hst : cb.state = CBState.closed)
    (hlt : cb.failure_count < cb.failure_threshold)
    (hge : cb.failure_threshold ≤ cb.failure_count + l.count false)
    (hrt : 0 ≤ cb.recovery_timeout) :
    (cbRun cb (l.map (fun b => (now, b)))).state = CBState.opened := by
  induction l generalizing cb with
  | nil => simp [List.count_nil] at hge; omega
  | cons b rest ih =>
    obtain ⟨tft, trt, tfc, tlf, tst⟩ := cb
    simp only at hst hlt hge hrt
    subst hst
    cases b with
    | true =>
      have hstep : cbCall ⟨tft, trt, tfc, tlf, CBState.closed⟩ now true
          = (⟨tft, trt, tfc, tlf, CBState.closed⟩, CBResult.ok) := by
        simp [cbCall, cbGuard]
      simp only [List.map_cons, cbRun, List.foldl_cons, hstep]
      exact ih ⟨tft, trt, tfc, tlf, CBState.closed⟩ rfl hlt (by simpa using hge) hrt
    | false =>
      by_cases h3 : tfc + 1 ≥ tft
      · have hstep : (cbCall ⟨tft, trt, tfc, tlf, CBState.closed⟩ now false).1
            = ⟨tft, trt, tfc + 1, now, CBState.opened⟩ := by
          simp [cbCall, cbGuard, h3]
        simp only [List.map_cons, cbRun, List.foldl_cons, hstep]
        have := cbRun_opened_stays rest ⟨tft, trt, tfc + 1, now, CBState.opened⟩
          now rfl rfl hrt
        simp only [cbRun] at this
        rw [this]
      · have hstep : (cbCall ⟨tft, trt, tfc, tlf, CBState.closed⟩ now false).1
            = ⟨tft, trt, tfc + 1, now, CBState.closed⟩ := by
          simp [cbCall, cbGuard, h3]
        simp only [List.map_cons, cbRun, List.foldl_cons, hstep]
        refine ih ⟨tft, trt, tfc + 1, now, CBState.closed⟩ rfl
          (by show tfc + 1 < tft; omega) ?_ hrt
        show tft ≤ tfc + 1 + rest.count false
        simp [List.count_cons] at hge
        omega

/-! ### Claims -/

/-- C3 (counterexample): the claim says a verification score of exactly 0.8
yields `high` and 0.5 yields `medium`; the code compares with strict `>`,
so a five-claim answer with four verified claims (score exactly 4/5) is
labelled `medium`, and `confidenceLevel (1/2)` is `low`. -/
theorem C3_counterexample :
    (verifyResponseAccuracy "alpha beta. alpha beta. alpha beta. alpha beta. zzz"
        ["alpha"]).verification_score = 4/5 ∧
    (verifyResponseAccuracy "alpha beta. alpha beta. alpha beta. alpha beta. zzz"
        ["alpha"]).confidence_level = "medium" ∧
    confidenceLevel (1/2) = "low" := by
  have hclaims : claimsOf "alpha beta. alpha beta. alpha beta. alpha beta. zzz"
      = ["alpha beta".data, "alpha beta".data, "alpha beta".data,
         "alpha beta".data, "zzz".data] := by decide
  have hloop : verifyLoop ["alpha"]
        ["alpha beta".data, "alpha beta".data, "alpha beta".data,
         "alpha beta".data, "zzz".data]
      = (["alpha beta".data, "alpha beta".data, "alpha beta".data,
          "alpha beta".data], ["zzz".data]) := by decide
  have hscore : (if ((["alpha beta".data, "alpha beta".data, "alpha beta".data,
          "alpha beta".data, "zzz".data] : List (List Char)) = []) then (0 : ℚ)
        else ((["alpha beta".data, "alpha beta".data, "alpha beta".data,
          "alpha beta".data] : List (List Char)).length : ℚ) /
          ((["alpha beta".data, "alpha beta".data, "alpha beta".data,
          "alpha beta".data, "zzz".data] : List (List Char)).length : ℚ)) = 4/5 := by
    rw [if_neg (by decide)]
    norm_num
  refine ⟨?_, ?_, ?_⟩
  · simp only [verifyResponseAccuracy, hclaims, hloop]
    exact hscore
  · simp only [verifyResponseAccuracy, hclaims, hloop]
    rw [hscore, confidenceLevel, if_neg (by norm_num), if_pos (by norm_num)]
  · rw [confidenceLevel, if_neg (by norm_num), if_neg (by norm_num)]

/-- C3 (amended): the Verifier's confidence label uses strict thresholds:
`high` iff score > 0.8, `medium` iff 0.5 < score ≤ 0.8, `low` iff
score ≤ 0.5. -/
theorem C3_amended_strict_thresholds (s : ℚ) :
    (4/5 < s → confidenceLevel s = "high") ∧
    (1/2 < s ∧ s ≤ 4/5 → confidenceLevel s = "medium") ∧
    (s ≤ 1/2 → confidenceLevel s = "low") := by
  refine ⟨?_, ?_, ?_⟩
  · intro h
    rw [confidenceLevel, if_pos h]
  · rintro ⟨h1, h2⟩
    rw [confidenceLevel, if_neg (not_lt.mpr h2), if_pos h1]
  · intro h
    rw [confidenceLevel, if_neg (by rw [not_lt]; linarith), if_neg (not_lt.mpr h)]

/-- C3 (witness): the three regimes of the amended claim at 0.9, 0.7
and 0.3. -/
theorem C3_witness :
    confidenceLevel (9/10) = "high" ∧ confidenceLevel (7/10) = "medium" ∧
      confidenceLevel (3/10) = "low" :=
  ⟨(C3_amended_strict_thresholds (9/10)).1 (by norm_num),
   (C3_amended_strict_thresholds (7/10)).2.1 ⟨by norm_num, by norm_num⟩,
   (C3_amended_strict_thresholds (3/10)).2.2 (by norm_num)⟩

/-- C4 (counterexample): the Verifier does not segment at all terminal
punctuation — `"Hello! Bye."` stays one claim unit although sentence
segmentation gives two — and a claim is marked verified by substring
containment of one of its first three tokens, not by sharing a lexical
token: `"cat runs"` is verified against the chunk `"concatenation"`,
with which it shares no whitespace token. -/
theorem C4_counterexample :
    claimsOf "Hello! Bye." = ["Hello! Bye.".data] ∧
    (specSentenceUnits "Hello! Bye.".data).length = 2 ∧
    (verifyResponseAccuracy "cat runs" ["concatenation"]).verified_claims
      = ["cat runs".data] ∧
    sharesLexicalToken "cat runs".data "concatenation".data = false := by
  refine ⟨by decide, by decide, by decide, by decide⟩

/-- C4 (amended): the Verifier splits the answer exactly at occurrences of
the two-character delimiter `'. '`, and a claim is verified if and only if
at least one of the first three whitespace tokens of the lowercased claim
occurs as a contiguous substring of at least one supplied chunk's
lowercased text. -/
theorem C4_amended_verification_characterization (response : String)
    (chunks : List String) :
    (verifyResponseAccuracy response chunks).verified_claims
        = (claimsOf response).filter (fun c => claimVerified chunks c) ∧
    (verifyResponseAccuracy response chunks).unverified_claims
        = (claimsOf response).filter (fun c => !(claimVerified chunks c)) ∧
    ∀ c, c ∈ (verifyResponseAccuracy response chunks).verified_claims ↔
      c ∈ claimsOf response ∧ ∃ chunk ∈ chunks, ∃ kw ∈ firstThreeKeywords c,
        strIn kw (lowerStr chunk.data) = true := by
  have h := verifyLoop_eq_filter chunks (claimsOf response)
  refine ⟨by simp [verifyResponseAccuracy, h], by simp [verifyResponseAccuracy, h], ?_⟩
  intro c
  simp [verifyResponseAccuracy, h, List.mem_filter, claimVerified, List.any_eq_true]

/-- C5: the verification score is always within [0,1]; the claim list
produced by `split('. ')` is never empty (Python's `split` with a
separator returns at least one piece), so the denominator of
`verified / total` is positive and no division by zero can occur; the
zero-claims guard of the code would return 0. -/
theorem C5_verification_score_bounds (response : String) (chunks : List String) :
    0 ≤ (verifyResponseAccuracy response chunks).verification_score ∧
    (verifyResponseAccuracy response chunks).verification_score ≤ 1 ∧
    0 < (claimsOf response).length := by
  have hne : claimsOf response ≠ [] := splitOnL_ne_nil _ _
  have hlen : 0 < (claimsOf response).length := List.length_pos.mpr hne
  have hfil : ((claimsOf response).filter
      (fun c => claimVerified chunks c)).length ≤ (claimsOf response).length :=
    List.length_filter_le _ _
  refine ⟨?_, ?_, hlen⟩
  · simp only [verifyResponseAccuracy, verifyLoop_eq_filter, if_neg hne]
    positivity
  · simp only [verifyResponseAccuracy, verifyLoop_eq_filter, if_neg hne]
    rw [div_le_one (by exact_mod_cast hlen)]
    exact_mod_cast hfil

/-- C6 (counterexample): the Content Filter matches by substring, not at
whole-word boundaries: in `"primitively"` the term `primitive` occurs only
inside a longer word — no indicator occurs at word boundaries — yet it is
matched and counted with score 1 and category `cultural_insensitivity`. -/
theorem C6_counterexample :
    (detectPotentialBias "primitively").bias_score = 1 ∧
    (detectPotentialBias "primitively").detected_biases
      = ["cultural_insensitivity"] ∧
    (biasIndicators.all fun p => p.2.all fun ind =>
        !(wholeWordOccurs ind.data "primitively".data)) = true := by
  refine ⟨by decide, by decide, by decide⟩

/-- C6 (amended): the Content Filter matches disallowed terms as
case-insensitive contiguous substrings: a term occurring anywhere in the
text — in particular strictly inside a longer unrelated word, with
arbitrary text on both sides — is matched, counted, and its category
recorded. -/
theorem C6_amended_substring_matching (pre post mid : String) (cat : String)
    (inds : List String) (ind : String)
    (hmem : (cat, inds) ∈ biasIndicators) (hind : ind ∈ inds)
    (hstr : strIn (lowerStr ind.data) (lowerStr mid.data) = true) :
    cat ∈ (detectPotentialBias (pre ++ mid ++ post)).detected_biases ∧
      0 < (detectPotentialBias (pre ++ mid ++ post)).bias_score := by
  have hdata : (pre ++ mid ++ post).data = pre.data ++ mid.data ++ post.data := by
    simp [String.data_append]
  have hinf : strIn (lowerStr ind.data) (lowerStr (pre ++ mid ++ post).data) = true := by
    rw [strIn_infix_iff] at hstr ⊢
    rw [hdata]
    unfold lowerStr
    rw [List.map_append, List.map_append]
    exact hstr.trans (List.infix_append _ _ _)
  have hhits : cat ∈ (detectPotentialBias (pre ++ mid ++ post)).detected_biases := by
    simp only [detectPotentialBias]
    refine List.mem_flatMap.mpr ⟨(cat, inds), hmem, ?_⟩
    refine List.mem_map.mpr ⟨ind, ?_, rfl⟩
    exact List.mem_filter.mpr ⟨hind, hinf⟩
  refine ⟨hhits, ?_⟩
  have hne : (detectPotentialBias (pre ++ mid ++ post)).detected_biases ≠ [] :=
    List.ne_nil_of_mem hhits
  have hlen : (detectPotentialBias (pre ++ mid ++ post)).detected_biases.length
      = (detectPotentialBias (pre ++ mid ++ post)).bias_score := by
    simp [detectPotentialBias]
  rw [← hlen]
  exact List.length_pos.mpr hne

/-- C6 (witness): `primitive` inside `"aprimitively"` is matched and
counted. -/
theorem C6_witness :
    "cultural_insensitivity"
        ∈ (detectPotentialBias ("a" ++ "primitive" ++ "ly")).detected_biases ∧
      0 < (detectPotentialBias ("a" ++ "primitive" ++ "ly")).bias_score :=
  C6_amended_substring_matching "a" "ly" "primitive" "cultural_insensitivity"
    ["primitive", "backward", "uncivilized"] "primitive"
    (by decide) (by decide) (by decide)

/-- C7 (counterexample): re-applying the filter need not yield match count
zero: `"primitive"` has one match (below the review threshold), is passed
through unchanged, and the filtered output still has match count 1. -/
theorem C7_counterexample :
    filterBiasedResponses (filterBiasedResponses "primitive")
        = filterBiasedResponses "primitive" ∧
    filterBiasedResponses "primitive" = "primitive" ∧
    (detectPotentialBias (filterBiasedResponses "primitive")).bias_score = 1 := by
  refine ⟨by decide, by decide, by decide⟩

/-- C7 (amended): the filter is idempotent as a function — re-applying it
to filtered output changes nothing — and the replacement apology itself
scores zero; but an unflagged response (at most two matches) passes
through with its matches intact, so the re-applied match count need not be
zero. -/
theorem C7_amended_idempotent (response : String) :
    filterBiasedResponses (filterBiasedResponses response)
        = filterBiasedResponses response ∧
    (detectPotentialBias biasApology).bias_score = 0 := by
  constructor
  · by_cases h : requiresReview response
    · have hap : requiresReview biasApology = false := by decide
      simp [filterBiasedResponses, h, hap]
    · simp [filterBiasedResponses, h]
  · decide

set_option maxRecDepth 4000 in
/-- C10: the disclaimer step returns the original response with one of the
three fixed nonempty disclaimers appended — at every confidence level —
so the answer is never shortened or withheld. -/
theorem C10_disclaimer_appended (response : String) (score : ℚ) :
    ∃ d : String,
      (d = lowDisclaimer ∨ d = mediumDisclaimer ∨ d = highDisclaimer) ∧
      addConfidenceDisclaimer response score = response ++ d ∧
      0 < d.length ∧
      response.length < (addConfidenceDisclaimer response score).length := by
  by_cases h1 : score < 1/2
  · refine ⟨lowDisclaimer, Or.inl rfl,
      by rw [addConfidenceDisclaimer, if_pos h1], by decide, ?_⟩
    rw [addConfidenceDisclaimer, if_pos h1, String.length_append]
    have hd : 0 < lowDisclaimer.length := by decide
    omega
  · by_cases h2 : score < 4/5
    · refine ⟨mediumDisclaimer, Or.inr (Or.inl rfl),
        by rw [addConfidenceDisclaimer, if_neg h1, if_pos h2], by decide, ?_⟩
      rw [addConfidenceDisclaimer, if_neg h1, if_pos h2, String.length_append]
      have hd : 0 < mediumDisclaimer.length := by decide
      omega
    · refine ⟨highDisclaimer, Or.inr (Or.inr rfl),
        by rw [addConfidenceDisclaimer, if_neg h1, if_neg h2], by decide, ?_⟩
      rw [addConfidenceDisclaimer, if_neg h1, if_neg h2, String.length_append]
      have hd : 0 < highDisclaimer.length := by decide
      omega

/-- C1 (counterexample): with the breaker `OPEN` and the recovery timeout
not yet elapsed (3 failures recorded, last at t=100, call at t=110,
timeout 30), the wrapper raises `Exception("Circuit breaker is OPEN")` to
its caller instead of returning a fallback answer. -/
theorem C1_counterexample :
    (synthesizerCall
        { failure_threshold := 3, recovery_timeout := 30, failure_count := 3,
          last_failure_time := 100, state := CBState.opened }
        110 none none).2
      = Except.error "Circuit breaker is OPEN" := by
  have hg : cbGuard
      { failure_threshold := 3, recovery_timeout := 30, failure_count := 3,
        last_failure_time := 100, state := CBState.opened } 110 = none := by
    rw [cbGuard, if_pos rfl, if_neg (by norm_num)]
  simp [synthesizerCall, hg]

/-- C1 (amended): when the model call fails, the Synthesizer converts the
failure into a returned fallback text (the fixed apology when no cached
response exists) and does not raise — and more generally any call let
through by the breaker returns normally, because the wrapped body traps
every model error itself; but when the breaker is `OPEN` and the recovery
timeout has not elapsed, the wrapper raises
`Exception("Circuit breaker is OPEN")` to the caller.  No confidence field
is attached on this path. -/
theorem C1_amended_fallback_or_open_raise (cb : CircuitBreaker) (now : ℚ)
    (llm cached : Option String) :
    (cb.state = CBState.opened → now - cb.last_failure_time ≤ cb.recovery_timeout →
      (synthesizerCall cb now llm cached).2
        = Except.error "Circuit breaker is OPEN") ∧
    (cb.state = CBState.opened → now - cb.last_failure_time > cb.recovery_timeout →
      (synthesizerCall cb now llm cached).2
        = Except.ok (llmResponseWithFallbackBody llm cached)) ∧
    (cb.state = CBState.closed →
      (synthesizerCall cb now llm cached).2
        = Except.ok (llmResponseWithFallbackBody llm cached)) ∧
    llmResponseWithFallbackBody none none = llmFallbackText := by
  refine ⟨?_, ?_, ?_, rfl⟩
  · intro h1 h2
    have hg : cbGuard cb now = none := by
      rw [cbGuard, if_pos h1, if_neg (not_lt.mpr h2)]
    simp [synthesizerCall, hg]
  · intro h1 h2
    have hg : cbGuard cb now = some { cb with state := CBState.halfOpen } := by
      rw [cbGuard, if_pos h1, if_pos h2]
    simp [synthesizerCall, hg]
  · intro h1
    have hg : cbGuard cb now = some cb := by
      rw [cbGuard, if_neg (by simp [h1])]
    have h4 : ¬(cb.state = CBState.halfOpen) := by simp [h1]
    simp [synthesizerCall, hg, h4]

/-- C1 (witness): a fresh breaker returns the fixed fallback when the
model call fails, and a concrete open breaker raises within the timeout. -/
theorem C1_witness :
    (synthesizerCall (mkCircuitBreaker 3 30) 5 none none).2
        = Except.ok (llmResponseWithFallbackBody none none) ∧
    (synthesizerCall
        { failure_threshold := 3, recovery_timeout := 30, failure_count := 3,
          last_failure_time := 100, state := CBState.opened }
        110 (some "text") none).2
      = Except.error "Circuit breaker is OPEN" :=
  ⟨(C1_amended_fallback_or_open_raise (mkCircuitBreaker 3 30) 5 none none).2.2.1 rfl,
   (C1_amended_fallback_or_open_raise _ 110 (some "text") none).1 rfl (by norm_num)⟩

/-- C2: the circuit breaker state machine: (1) from a fresh breaker,
`failure_threshold ≥ 1` consecutive failures end in `OPEN`; (2) in `OPEN`
before the recovery timeout has elapsed, a call is rejected without
invoking the wrapped function and the breaker is unchanged (the outcome
argument is irrelevant); (3) the first call after the timeout moves the
breaker to `HALF_OPEN` before the trial call; (4) a success in `HALF_OPEN`
yields `CLOSED` with the failure counter reset; (5) from any reachable
`OPEN` breaker, a failing trial call after the timeout returns the breaker
to `OPEN` with the failure timer restarted at the current time. -/
theorem C2_breaker_state_machine :
    (∀ (ft : Nat) (rt : ℚ) (times : List ℚ), 1 ≤ ft → times.length = ft →
      (cbRun (mkCircuitBreaker ft rt) (times.map (fun t => (t, false)))).state
        = CBState.opened) ∧
    (∀ (cb : CircuitBreaker) (now : ℚ) (success : Bool),
      cb.state = CBState.opened →
      now - cb.last_failure_time ≤ cb.recovery_timeout →
      cbCall cb now success = (cb, CBResult.rejected)) ∧
    (∀ (cb : CircuitBreaker) (now : ℚ),
      cb.state = CBState.opened →
      now - cb.last_failure_time > cb.recovery_timeout →
      cbGuard cb now = some { cb with state := CBState.halfOpen }) ∧
    (∀ (cb : CircuitBreaker) (now : ℚ),
      cb.state = CBState.halfOpen →
      cbCall cb now true
        = ({ cb with state := CBState.closed, failure_count := 0 },
           CBResult.ok)) ∧
    (∀ (ft : Nat) (rt : ℚ) (cb : CircuitBreaker) (now : ℚ),
      CBReachable ft rt cb →
      cb.state = CBState.opened →
      now - cb.last_failure_time > cb.recovery_timeout →
      (cbCall cb now false).1.state = CBState.opened ∧
      (cbCall cb now false).1.last_failure_time = now ∧
      (cbCall cb now false).2 = CBResult.raised) := by
  refine ⟨?_, ?_, ?_, ?_, ?_⟩
  · intro ft rt times hft hlen
    exact cbFailRun_opens times (mkCircuitBreaker ft rt) rfl
      (by simpa [mkCircuitBreaker] using hlen) (by omega)
  · intro cb now success h1 h2
    have hg : cbGuard cb now = none := by
      rw [cbGuard, if_pos h1, if_neg (not_lt.mpr h2)]
    simp [cbCall, hg]
  · intro cb now h1 h2
    rw [cbGuard, if_pos h1, if_pos h2]
  · intro cb now h1
    have hg : cbGuard cb now = some cb := by
      rw [cbGuard, if_neg (by simp [h1])]
    simp [cbCall, hg, h1]
  · intro ft rt cb now hr h1 h2
    have hinv : cb.failure_threshold ≤ cb.failure_count :=
      cb_reachable_count_ge ft rt cb hr (Or.inl h1)
    have hg : cbGuard cb now = some { cb with state := CBState.halfOpen } := by
      rw [cbGuard, if_pos h1, if_pos h2]
    have h3 : cb.failure_count + 1 ≥ cb.failure_threshold := by omega
    simp [cbCall, hg, h3]

/-- C2 (witness): a threshold-2 breaker: two failures open it; it rejects
at t=5 (timeout 10, last failure t=1); at t=20 the guard enters
`HALF_OPEN`; a trial success closes and resets; a trial failure reopens
with the timer restarted at t=20. -/
theorem C2_witness :
    (cbRun (mkCircuitBreaker 2 10)
        (([0, 1] : List ℚ).map (fun t => (t, false)))).state = CBState.opened ∧
    cbCall ⟨2, 10, 2, 1, CBState.opened⟩ 5 true
      = (⟨2, 10, 2, 1, CBState.opened⟩, CBResult.rejected) ∧
    cbGuard ⟨2, 10, 2, 1, CBState.opened⟩ 20
      = some ⟨2, 10, 2, 1, CBState.halfOpen⟩ ∧
    cbCall ⟨2, 10, 2, 1, CBState.halfOpen⟩ 20 true
      = (⟨2, 10, 0, 1, CBState.closed⟩, CBResult.ok) ∧
    ((cbCall ⟨2, 10, 2, 1, CBState.opened⟩ 20 false).1.state = CBState.opened ∧
     (cbCall ⟨2, 10, 2, 1, CBState.opened⟩ 20 false).1.last_failure_time = 20 ∧
     (cbCall ⟨2, 10, 2, 1, CBState.opened⟩ 20 false).2 = CBResult.raised) := by
  obtain ⟨ha, hb, hc, hd, he⟩ := C2_breaker_state_machine
  refine ⟨ha 2 10 [0, 1] (by norm_num) (by simp), hb _ 5 true rfl (by norm_num),
    hc _ 20 rfl (by norm_num), hd ⟨2, 10, 2, 1, CBState.halfOpen⟩ 20 rfl, ?_⟩
  have hreach : CBReachable 2 10 ⟨2, 10, 2, 1, CBState.opened⟩ := by
    have h0 : CBReachable 2 10
        (cbCall (cbCall (mkCircuitBreaker 2 10) 0 false).1 1 false).1 :=
      CBReachable.step _ 1 false (CBReachable.step _ 0 false CBReachable.init)
    have heq : (cbCall (cbCall (mkCircuitBreaker 2 10) 0 false).1 1 false).1
        = ⟨2, 10, 2, 1, CBState.opened⟩ := by decide
    rwa [heq] at h0
  exact he 2 10 _ 20 hreach rfl (by norm_num)

/-- C9: in `CLOSED`, a successful call leaves the breaker — in particular
the failure counter — completely unchanged, so `failure_threshold`
cumulative failures interleaved with successes still open the breaker. -/
theorem C9_closed_success_frame :
    (∀ (cb : CircuitBreaker) (now : ℚ), cb.state = CBState.closed →
      cbCall cb now true = (cb, CBResult.ok)) ∧
    (∀ (l : List Bool) (cb : CircuitBreaker) (now : ℚ),
      cb.state = CBState.closed →
      cb.failure_count < cb.failure_threshold →
      cb.failure_threshold ≤ cb.failure_count + l.count false →
      0 ≤ cb.recovery_timeout →
      (cbRun cb (l.map (fun b => (now, b)))).state = CBState.opened) := by
  constructor
  · intro cb now h1
    have hg : cbGuard cb now = some cb := by
      rw [cbGuard, if_neg (by simp [h1])]
    have h4 : ¬(cb.state = CBState.halfOpen) := by simp [h1]
    simp [cbCall, hg, h4]
  · intro l cb now h1 h2 h3 h4
    exact cbRun_mixed_opens l cb now h1 h2 h3 h4

/-- C9 (witness): a success at count 1 of 2 changes nothing; the outcome
sequence failure–success–failure opens a threshold-2 breaker. -/
theorem C9_witness :
    cbCall ⟨2, 10, 1, 0, CBState.closed⟩ 7 true
      = (⟨2, 10, 1, 0, CBState.closed⟩, CBResult.ok) ∧
    (cbRun (mkCircuitBreaker 2 10)
        (([false, true, false] : List Bool).map (fun b => ((0 : ℚ), b)))).state
      = CBState.opened := by
  obtain ⟨h1, h2⟩ := C9_closed_success_frame
  exact ⟨h1 _ 7 rfl,
    h2 [false, true, false] _ 0 rfl (by decide) (by decide)
      (by norm_num [mkCircuitBreaker])⟩

/-- C8 (counterexample): the caller-facing `/query` response documented in
the repository and consumed by the frontend has exactly one key,
`answer`; it has no `confidence` and no `citations` key. -/
theorem C8_counterexample :
    queryResponseKeys = ["answer"] ∧
    (queryResponseKeys.contains "confidence") = false ∧
    (queryResponseKeys.contains "citations") = false := by
  refine ⟨rfl, by decide, by decide⟩

/-- C8 (amended): the caller-facing response to a successfully answered
question carries only the `answer` string — two responses agreeing on
`answer` are equal — and `answer` is its only documented key; confidence
and citations are not part of the caller-facing contract. -/
theorem C8_amended_answer_only :
    (∀ r₁ r₂ : QueryResponse, r₁.answer = r₂.answer → r₁ = r₂) ∧
    queryResponseKeys = ["answer"] := by
  constructor
  · intro r₁ r₂ h
    cases r₁
    cases r₂
    simpa using h
  · rfl

/-- C8 (witness): the amended claim applied to two concrete responses with
the same answer text. -/
theorem C8_witness :
    QueryResponse.mk "x" = QueryResponse.mk "x" ∧ queryResponseKeys = ["answer"] :=
  ⟨C8_amended_answer_only.1 ⟨"x"⟩ ⟨"x"⟩ rfl, C8_amended_answer_only.2⟩

end EpicWebApp
